import Mathlib

/-!
# ngrok-with-user: the account registry of `ngrok/server/config.go`

A shallow embedding of the registry, persistence, quota and login code of
`src/ngrok/server/config.go`, followed by theorems about it.

Conventions of the embedding.

* A Go `error` is an `Option String`: `none` is `nil`.
* A Go pointer that the code may receive as `nil` is an `Option`; a
  dereference of `nil` is a run-time panic, which the functions that can reach
  one report in their result.
* A Go `map[string]*UserInfo` is an association list with one entry per key;
  `mapGet` and `mapSet` are the index and the assignment of the map. The order
  of the list stands for the (unspecified) iteration order of the map, and no
  theorem below depends on it.
* The mutex `mu` is left out: every function is one atomic step.
* `int32` counters are integers; the code only stores `0` into them and
  compares them with a constant, so no arithmetic can overflow here.
* Log output is left out.
-/

namespace Ngrok

/-! ## Data model -/

/-- Modelled from the spec: `msg.ClientTunnel` is declared in the package
`ngrok/msg`, which is not among the sources. The spec gives a tunnel a
server-issued identifier and a subdomain; these are the two fields
`config.go` reads and writes (`t.Id`, `t.Subdomain`). -/
structure ClientTunnel where
  Id : String
  Subdomain : String
deriving DecidableEq, Repr

/-- Modelled from the spec: `msg.Auth` is declared in the package `ngrok/msg`,
which is not among the sources. `CheckForLogin` reads its fields `User` and
`Password`: the tenant identifier and the supplied secret. -/
structure Auth where
  User : String
  Password : String
deriving DecidableEq, Repr

/-- The Go struct `UserConfig`. `Tunnel` is a `[]*msg.ClientTunnel`: an entry
is `none` when the pointer is `nil`. -/
structure UserConfig where
  User : String
  Password : String
  Tunnel : List (Option ClientTunnel)
deriving DecidableEq, Repr

/-- The Go struct `UserInfo`. `Uc` is never `nil` in a registry: the only
constructor of a `UserInfo`, `AddUserConfig`, dereferences the pointer first. -/
structure UserInfo where
  Uc : UserConfig
  TransPerDay : Int
  TransAll : Int
deriving DecidableEq, Repr

/-- The constant `DbPrefix`. -/
def DbPrefix : String := "ngrok"

/-! ## The map of users -/

/-- The type `map[string]*UserInfo`. -/
abbrev UserMap := List (String × UserInfo)

/-- The map index `m[key]`, with its `ok` flag as the `Option`. -/
def mapGet : UserMap → String → Option UserInfo
  | [], _ => none
  | (k, v) :: rest, key => if k = key then some v else mapGet rest key

/-- The map assignment `m[key] = v`. -/
def mapSet : UserMap → String → UserInfo → UserMap
  | [], key, v => [(key, v)]
  | (k, v0) :: rest, key, v =>
    if k = key then (key, v) :: rest else (k, v0) :: mapSet rest key v

/-- The keys of the map. -/
def mapKeys (m : UserMap) : List String := m.map Prod.fst

/-! ## The sharding transform -/

/-- A Go string as `blockTransform` sees it: a sequence of bytes (`len` counts
bytes and `s[i:j]` slices bytes). -/
abbrev GoString := List UInt8

/-- The bytes of the literal `"__small"`. -/
def smallBucket : GoString := [95, 95, 115, 109, 97, 108, 108]

/-- The slice expression `s[lo:hi]`. -/
def goSlice (s : GoString) (lo hi : Nat) : GoString := (s.drop lo).take (hi - lo)

/-- The function `blockTransform`: `pathSlice` starts as `block` empty strings
and each loop assigns `pathSlice[i]` for `i = 0 .. block - 1`. -/
def blockTransform (s : GoString) : List GoString :=
  let block := 2
  let word := 2
  let pathSlice : List GoString := List.replicate block []
  if s.length < block * word then
    (List.range block).foldl (fun p i => p.set i smallBucket) pathSlice
  else
    (List.range block).foldl
      (fun p i => p.set i (goSlice s (word * i) (word * (i + 1)))) pathSlice

/-! ## The collaborators of `config.go` -/

/-- Modelled from the spec: the store is the library type `diskv.Diskv`, which
is not among the sources; the spec calls it a durable key/value backend.
`files` holds one record per key, with its content, or `none` for a record
whose file cannot be read; `writeFails` tells whether a write to the store
fails (a full or read-only disk). -/
structure Diskv where
  files : List (String × Option String)
  writeFails : Bool
deriving DecidableEq, Repr

/-- The record stored under `key`, if there is one. -/
def fileGet : List (String × Option String) → String → Option (Option String)
  | [], _ => none
  | (k, v) :: rest, key => if k = key then some v else fileGet rest key

/-- The records after `key` has been given the content `v`. -/
def fileSet : List (String × Option String) → String → Option String →
    List (String × Option String)
  | [], key, v => [(key, v)]
  | (k, v0) :: rest, key, v =>
    if k = key then (key, v) :: rest else (k, v0) :: fileSet rest key v

/-- The call `diskv.Write(key, val)`: the store afterwards and the error. -/
def Diskv.Write (d : Diskv) (key val : String) : Diskv × Option String :=
  if d.writeFails then (d, some "write failed")
  else ({ d with files := fileSet d.files key (some val) }, none)

/-- The call `diskv.Read(key)`. -/
def Diskv.Read (d : Diskv) (key : String) : Except String String :=
  match fileGet d.files key with
  | some (some b) => .ok b
  | some none => .error "read failed"
  | none => .error "no such key"

/-- The call `diskv.KeysPrefix(pfx, nil)`, drained: the stored keys that start
with `pfx`. -/
def Diskv.KeysPrefix (d : Diskv) (pfx : String) : List String :=
  (d.files.map Prod.fst).filter (fun k => pfx.toList.isPrefixOf k.toList)

/-- What `config.go` takes from outside the file: the admin password
`opts.pass`, the JSON codec of `encoding/json` at the types the code uses it
at, and `util.SecureRandId(8)`, whose `n`-th call returns `SecureRandId n`. -/
structure Env where
  pass : String
  unmarshal : String → Except String UserConfig
  marshalConfig : UserConfig → String
  marshalInfo : UserInfo → String
  SecureRandId : Nat → Except String String

/-- The part of an `*http.Request` the handlers read: the value of
`r.Header.Get("Auth")` and the result of `ioutil.ReadAll(r.Body)`. -/
structure Request where
  auth : String
  body : Except String String

/-- The `http.ResponseWriter`: the header map, the status code once a header
has been written, and the body written so far. -/
structure ResponseWriter where
  header : List (String × String)
  status : Option Nat
  body : String
deriving DecidableEq, Repr

/-- A response nothing has been written to. -/
def ResponseWriter.fresh : ResponseWriter := ⟨[], none, ""⟩

/-- The call `w.Header().Set(k, v)`. -/
def ResponseWriter.HeaderSet (w : ResponseWriter) (k v : String) : ResponseWriter :=
  { w with header := (k, v) :: w.header.filter (fun p => p.1 ≠ k) }

/-- The call `w.WriteHeader(code)`: only the first one counts. -/
def ResponseWriter.WriteHeader (w : ResponseWriter) (code : Nat) : ResponseWriter :=
  match w.status with
  | none => { w with status := some code }
  | some _ => w

/-- The call `w.Write(s)`, as `fmt.Fprint(w, s)` makes it: a write before any
header sends the header with status 200 first. -/
def ResponseWriter.Write (w : ResponseWriter) (s : String) : ResponseWriter :=
  let w1 := w.WriteHeader 200
  { w1 with body := w1.body ++ s }

/-- The status code the server sends once the handler has returned: the one
written, or 200 when the handler wrote none. -/
def ResponseWriter.sentStatus (w : ResponseWriter) : Nat := w.status.getD 200

/-- The function `http.StatusText` at the codes that matter here. -/
def StatusText : Nat → String
  | 200 => "OK"
  | 400 => "Bad Request"
  | 404 => "Not Found"
  | 500 => "Internal Server Error"
  | _ => ""

/-- The function `http.Error(w, error, code)`. -/
def httpError (w : ResponseWriter) (error : String) (code : Nat) : ResponseWriter :=
  (((w.HeaderSet "Content-Type" "text/plain; charset=utf-8").HeaderSet
    "X-Content-Type-Options" "nosniff").WriteHeader code).Write (error ++ "\n")

/-- The function `http.NotFound(w, r)`. -/
def NotFound (w : ResponseWriter) : ResponseWriter := httpError w "404 page not found" 404

/-! ## The registry -/

/-- The Go struct `Db`. -/
structure Db where
  diskv : Diskv
deriving DecidableEq, Repr

/-- The Go struct `ConfigMgr`, without its mutex. -/
structure ConfigMgr where
  db : Db
  users : UserMap
deriving DecidableEq, Repr

/-- A computation that either yields a value or panics. -/
inductive Run (α : Type) where
  | value (a : α)
  | panic
deriving DecidableEq, Repr

/-- The method `Db.Save`: the store afterwards and the returned error. The
error of `diskv.Write` is dropped and `nil` is returned. -/
def Db.Save (E : Env) (db : Db) (uc : UserConfig) : Db × Option String :=
  let b := E.marshalConfig uc
  let written := db.diskv.Write (DbPrefix ++ ":" ++ uc.User) b
  ({ db with diskv := written.1 }, none)

/-- The method `Db.loadFrom`: the returned pointer and error. When the record
is read but does not decode, the code returns `err`, the error of the read,
which is `nil` there. -/
def Db.loadFrom (E : Env) (db : Db) (key : String) : Option UserConfig × Option String :=
  match db.diskv.Read key with
  | .ok b =>
    let err : Option String := none
    match E.unmarshal b with
    | .ok uc => (some uc, none)
    | .error _ => (none, err)
  | .error err => (none, some err)

/-- The method `ConfigMgr.AddUserConfig`. Reading `uc.User` panics when `uc`
is `nil`; otherwise a new `UserInfo` holding `uc` is stored under `uc.User`
and `nil` is returned. -/
def ConfigMgr.AddUserConfig (mgr : ConfigMgr) (uc : Option UserConfig) :
    Run (ConfigMgr × Option String) :=
  match uc with
  | none => .panic
  | some c =>
    let ui : UserInfo := { Uc := c, TransPerDay := 0, TransAll := 0 }
    .value ({ mgr with users := mapSet mgr.users c.User ui }, none)

/-- The loop of `Db.LoadAll` over the keys still to be read. -/
def loadKeys (E : Env) (db : Db) : List String → ConfigMgr → Run ConfigMgr
  | [], mgr => .value mgr
  | k :: ks, mgr =>
    match db.loadFrom E k with
    | (uc, none) =>
      match mgr.AddUserConfig uc with
      | .panic => .panic
      | .value (mgr1, _) => loadKeys E db ks mgr1
    | (_, some _) => loadKeys E db ks mgr

/-- The method `Db.LoadAll`: the registry afterwards and the returned error. -/
def Db.LoadAll (E : Env) (db : Db) (mgr : ConfigMgr) : Run (ConfigMgr × Option String) :=
  match loadKeys E db (db.diskv.KeysPrefix DbPrefix) mgr with
  | .panic => .panic
  | .value mgr1 => .value (mgr1, none)

/-- The method `ConfigMgr.ListAll`. -/
def ConfigMgr.ListAll (E : Env) (mgr : ConfigMgr) : List String :=
  mgr.users.foldl (fun s p => s ++ [E.marshalInfo p.2]) []

/-- The method `ConfigMgr.GetUserInfo`. -/
def ConfigMgr.GetUserInfo (mgr : ConfigMgr) (user : String) : Option UserInfo :=
  match mapGet mgr.users user with
  | some ui => some ui
  | none => none

/-- The method `ConfigMgr.TimeoutAllDays`. -/
def ConfigMgr.TimeoutAllDays (mgr : ConfigMgr) : ConfigMgr :=
  { mgr with users := mgr.users.map (fun p => (p.1, { p.2 with TransPerDay := 0 })) }

/-- The function `CheckForLogin` on the registry `cMgr`; `none` is the `nil`
it returns to deny. -/
def CheckForLogin (cMgr : ConfigMgr) (authMsg : Auth) : Option UserInfo :=
  match cMgr.GetUserInfo authMsg.User with
  | none => none
  | some usr =>
    if usr.Uc.Password ≠ "" ∧ usr.Uc.Password ≠ authMsg.Password then none
    else
      let day := usr.TransPerDay
      if day > 1024 * 1024 * 1024 then none else some usr

/-! ## The admin handlers -/

/-- How a handler ends: it returns a status and an error, or it panics. -/
inductive Outcome where
  | returned (status : Nat) (err : Option String)
  | panicked
deriving DecidableEq, Repr

/-- What a handler leaves behind: how it ended, the registry, the response,
and the number of calls of `util.SecureRandId` made so far. -/
structure Step where
  outcome : Outcome
  mgr : ConfigMgr
  w : ResponseWriter
  rand : Nat
deriving DecidableEq, Repr

/-- How the tunnel loop of `addUser` ends. -/
inductive TunnelLoop where
  | done (tunnels : List (Option ClientTunnel)) (err : Option String) (rand : Nat)
  | failed (err : String) (rand : Nat)
  | nilTunnel (rand : Nat)
deriving DecidableEq, Repr

/-- The loop `for _, t := range uc.Tunnel` of `addUser`, from the tunnels
still to visit, the current value of the variable `err` and the number of
identifiers drawn so far. Each round draws an identifier into `t.Id` and `err`
(a panic when `t` is `nil`), returns when `err` is set, and appends
`"." + uc.User` to `t.Subdomain`. -/
def addUserTunnels (E : Env) (user : String) :
    List (Option ClientTunnel) → Option String → Nat → TunnelLoop
  | [], err, n => .done [] err n
  | none :: _, _, n => .nilTunnel (n + 1)
  | some t :: rest, _, n =>
    match E.SecureRandId n with
    | .error e => .failed e (n + 1)
    | .ok id =>
      match addUserTunnels E user rest none (n + 1) with
      | .done ts err m =>
        .done (some { Id := id, Subdomain := t.Subdomain ++ "." ++ user } :: ts) err m
      | .failed e m => .failed e m
      | .nilTunnel m => .nilTunnel m

/-- The handler `addUser`. `mgr` is also the global `cMgr` the handler reads
(`ConfigMain` registers the handler with `cMgr`). The comparison the source
writes as `uc.User.Password` is the one with the request's `uc.Password`. -/
def addUser (E : Env) (mgr : ConfigMgr) (w : ResponseWriter) (r : Request) (n : Nat) : Step :=
  if E.pass ≠ r.auth then ⟨.returned 400 (some "not allow"), mgr, w, n⟩
  else
    match r.body with
    | .error err => ⟨.returned 400 (some err), mgr, w, n⟩
    | .ok body =>
      let err : Option String := none
      match E.unmarshal body with
      | .error e => ⟨.returned 400 (some e), mgr, w, n⟩
      | .ok uc0 =>
        match addUserTunnels E uc0.User uc0.Tunnel err n with
        | .nilTunnel m => ⟨.panicked, mgr, w, m⟩
        | .failed e m => ⟨.returned 400 (some e), mgr, w, m⟩
        | .done ts err m =>
          let uc : UserConfig := { uc0 with Tunnel := ts }
          let usr := mgr.GetUserInfo uc.User
          let denied : Bool :=
            match usr with
            | some u => decide (u.Uc.Password ≠ "" ∧ u.Uc.Password ≠ uc.Password)
            | none => false
          if denied then ⟨.returned 400 err, mgr, w, m⟩
          else
            match mgr.AddUserConfig (some uc) with
            | .panic => ⟨.panicked, mgr, w, m⟩
            | .value (mgr1, some e) => ⟨.returned 400 (some e), mgr1, w, m⟩
            | .value (mgr1, none) =>
              let mgr2 : ConfigMgr := { mgr1 with db := (mgr1.db.Save E uc).1 }
              let w1 := w.HeaderSet "Content-Type" "application/json"
              let w2 := w1.Write "\x7b\x27code\x27: \x27ok\x27\x7d"
              ⟨.returned 200 none, mgr2, w2, m⟩

/-- The type of the field `h` of `appHandler`. -/
abbrev Handler := Env → ConfigMgr → ResponseWriter → Request → Nat → Step

/-- The method `appHandler.ServeHTTP` for the handler `h`: an error response
is written only when `h` returns a non-`nil` error. -/
def ServeHTTP (h : Handler) (E : Env) (mgr : ConfigMgr) (w : ResponseWriter)
    (r : Request) (n : Nat) : Step :=
  let s := h E mgr w r n
  match s.outcome with
  | .panicked => s
  | .returned _ none => s
  | .returned status (some _) =>
    if status = 404 then { s with w := NotFound s.w }
    else if status = 500 then { s with w := httpError s.w (StatusText status) status }
    else { s with w := httpError s.w (StatusText status) status }

/-- The requests of a list handled one after the other by `addUser`, each with
a response of its own: the final registry, the final count of identifiers
drawn, and how each request ended. -/
def registerAll (E : Env) : ConfigMgr → Nat → List Request → ConfigMgr × Nat × List Outcome
  | mgr, n, [] => (mgr, n, [])
  | mgr, n, r :: rs =>
    let s := addUser E mgr ResponseWriter.fresh r n
    let rest := registerAll E s.mgr s.rand rs
    (rest.1, rest.2.1, s.outcome :: rest.2.2)

/-- The account a request asks to register, when its body is read and
decodes. -/
def requestedConfig (E : Env) (r : Request) : Option UserConfig :=
  match r.body with
  | .error _ => none
  | .ok body =>
    match E.unmarshal body with
    | .error _ => none
    | .ok uc => some uc

/-- The tenant identifier a request asks to register, when its body decodes. -/
def requestedUser (E : Env) (r : Request) : Option String :=
  (requestedConfig E r).map UserConfig.User

/-- The registry and the response `addUser` leaves when it accepts the
account `uc0` with the tunnels `ts`. -/
def accepted (E : Env) (mgr : ConfigMgr) (w : ResponseWriter) (uc0 : UserConfig)
    (ts : List (Option ClientTunnel)) (m : Nat) : Step :=
  let uc : UserConfig := { uc0 with Tunnel := ts }
  let users := mapSet mgr.users uc0.User { Uc := uc, TransPerDay := 0, TransAll := 0 }
  { outcome := .returned 200 none
    mgr := { db := ((Db.Save E mgr.db uc).1), users := users }
    w := (w.HeaderSet "Content-Type" "application/json").Write "\x7b\x27code\x27: \x27ok\x27\x7d"
    rand := m }

/-! ## Sample data for the examples -/

/-- The request body that registers alice with the secret `secret` and one
tunnel whose requested subdomain is `api`. -/
def aliceBody : String :=
  "\x7b\"user\":\"alice\",\"password\":\"secret\",\"tunnel\":[\x7b\"subdomain\":\"api\"\x7d]\x7d"

/-- The request body that registers alice with the secret `wrong` and no
tunnel. -/
def aliceWrongBody : String := "\x7b\"user\":\"alice\",\"password\":\"wrong\"\x7d"

/-- The request body that registers alice with the secret `wrong` and a tunnel
list whose only entry is `null`. -/
def aliceNullBody : String :=
  "\x7b\"user\":\"alice\",\"password\":\"wrong\",\"tunnel\":[null]\x7d"

/-- The request body that registers bob with the secret `pw` and no tunnel. -/
def bobBody : String := "\x7b\"user\":\"bob\",\"password\":\"pw\"\x7d"

/-- The values of `json.Unmarshal` into a `UserConfig` on the four bodies
above; every other text the examples use, such as `not json`, is no JSON
object and is refused. -/
def sampleUnmarshal (b : String) : Except String UserConfig :=
  if b = aliceBody then
    .ok { User := "alice", Password := "secret", Tunnel := [some { Id := "", Subdomain := "api" }] }
  else if b = aliceWrongBody then
    .ok { User := "alice", Password := "wrong", Tunnel := [] }
  else if b = aliceNullBody then
    .ok { User := "alice", Password := "wrong", Tunnel := [none] }
  else if b = bobBody then
    .ok { User := "bob", Password := "pw", Tunnel := [] }
  else .error "invalid character"

/-- An environment for the examples: the admin password is `admin`, every
draw of an identifier succeeds, and the two encoders are stand-ins whose
output the examples do not look into. -/
def sampleEnv : Env where
  pass := "admin"
  unmarshal := sampleUnmarshal
  marshalConfig := fun uc => "config:" ++ uc.User
  marshalInfo := fun ui => "info:" ++ ui.Uc.User
  SecureRandId := fun _ => .ok "0123456789abcdef"

/-- An empty store that accepts writes. -/
def emptyDb : Db := { diskv := { files := [], writeFails := false } }

/-- An empty store on which every write fails. -/
def fullDiskDb : Db := { diskv := { files := [], writeFails := true } }

/-- A store with one record under the key of bob whose content is no JSON. -/
def corruptDb : Db :=
  { diskv := { files := [("ngrok:bob", some "not json")], writeFails := false } }

/-- The record of alice with the secret `secret`, no tunnel, and some traffic
counted. -/
def aliceInfo : UserInfo :=
  { Uc := { User := "alice", Password := "secret", Tunnel := [] }, TransPerDay := 5, TransAll := 7 }

/-- A registry that holds alice only. -/
def aliceMgr : ConfigMgr := { db := emptyDb, users := [("alice", aliceInfo)] }

/-- An authenticated request with the given body. -/
def adminRequest (body : String) : Request := { auth := "admin", body := .ok body }

/-! ## Theorems -/

theorem getUserInfo_eq (mgr : ConfigMgr) (user : String) :
    mgr.GetUserInfo user = mapGet mgr.users user := by
  unfold ConfigMgr.GetUserInfo
  cases mapGet mgr.users user <;> rfl

/-! ### The map of users -/

theorem mapGet_mapSet (m : UserMap) (k k2 : String) (v : UserInfo) :
    mapGet (mapSet m k v) k2 = if k = k2 then some v else mapGet m k2 := by
  induction m with
  | nil => simp [mapSet, mapGet]
  | cons p rest ih =>
    obtain ⟨k0, v0⟩ := p
    by_cases h : k0 = k
    · subst h
      by_cases h2 : k0 = k2 <;> simp [mapSet, mapGet, h2]
    · by_cases h2 : k = k2
      · subst h2
        simp [mapSet, mapGet, h, ih]
      · by_cases h3 : k0 = k2
        · subst h3
          simp [mapSet, mapGet, h, h2]
        · simp [mapSet, mapGet, h, h2, h3, ih]

theorem mapKeys_mapSet_of_not_mem (m : UserMap) (k : String) (v : UserInfo)
    (h : k ∉ mapKeys m) : mapKeys (mapSet m k v) = mapKeys m ++ [k] := by
  induction m with
  | nil => simp [mapSet, mapKeys]
  | cons p rest ih =>
    obtain ⟨k0, v0⟩ := p
    have hk : ¬ k0 = k := by
      intro e
      apply h
      simp [mapKeys, e]
    have hr : k ∉ mapKeys rest := by
      intro e
      apply h
      simp only [mapKeys, List.map_cons, List.mem_cons]
      exact Or.inr e
    have := ih hr
    simp only [mapKeys] at this
    simp [mapSet, mapKeys, hk, this]

theorem mem_mapSet (m : UserMap) (k : String) (v : UserInfo) (p : String × UserInfo)
    (h : p ∈ mapSet m k v) : p = (k, v) ∨ p ∈ m := by
  induction m with
  | nil =>
    simp only [mapSet, List.mem_singleton] at h
    exact Or.inl h
  | cons q rest ih =>
    obtain ⟨k0, v0⟩ := q
    by_cases hk : k0 = k
    · simp only [mapSet, hk, if_true, List.mem_cons] at h
      rcases h with h | h
      · exact Or.inl h
      · exact Or.inr (List.mem_cons_of_mem _ h)
    · simp only [mapSet, hk, if_false, List.mem_cons] at h
      rcases h with h | h
      · exact Or.inr (by rw [h]; exact List.mem_cons_self _ _)
      · rcases ih h with h2 | h2
        · exact Or.inl h2
        · exact Or.inr (List.mem_cons_of_mem _ h2)

/-! ### The handler `addUser` -/

theorem addUserTunnels_done (E : Env) (user : String) :
    ∀ (ts0 : List (Option ClientTunnel)) (err : Option String) (n : Nat)
      (ts : List (Option ClientTunnel)) (err1 : Option String) (m : Nat),
      addUserTunnels E user ts0 err n = .done ts err1 m →
      ts.map (Option.map ClientTunnel.Subdomain) =
        ts0.map (Option.map (fun t => t.Subdomain ++ "." ++ user)) ∧
      (err1 = none ∨ err1 = err) := by
  intro ts0
  induction ts0 with
  | nil =>
    intro err n ts err1 m h
    simp only [addUserTunnels, TunnelLoop.done.injEq] at h
    obtain ⟨h1, h2, _⟩ := h
    subst h1
    exact ⟨rfl, Or.inr h2.symm⟩
  | cons t rest ih =>
    intro err n ts err1 m h
    cases t with
    | none => simp [addUserTunnels] at h
    | some t =>
      simp only [addUserTunnels] at h
      cases hr : E.SecureRandId n with
      | error e => simp [hr] at h
      | ok id =>
        simp only [hr] at h
        cases hrec : addUserTunnels E user rest none (n + 1) with
        | failed e m2 => simp [hrec] at h
        | nilTunnel m2 => simp [hrec] at h
        | done ts2 err2 m2 =>
          simp only [hrec, TunnelLoop.done.injEq] at h
          obtain ⟨h1, h2, _⟩ := h
          obtain ⟨ih1, ih2⟩ := ih none (n + 1) ts2 err2 m2 hrec
          subst h1
          subst h2
          refine ⟨?_, ?_⟩
          · simp [ih1]
          · rcases ih2 with h3 | h3 <;> exact Or.inl h3

theorem addUserTunnels_nilTunnel (E : Env) (user : String) :
    ∀ (ts0 : List (Option ClientTunnel)) (err : Option String) (n m : Nat),
      addUserTunnels E user ts0 err n = .nilTunnel m → none ∈ ts0 := by
  intro ts0
  induction ts0 with
  | nil =>
    intro err n m h
    simp [addUserTunnels] at h
  | cons t rest ih =>
    intro err n m h
    cases t with
    | none => exact List.mem_cons_self _ _
    | some t =>
      simp only [addUserTunnels] at h
      cases hr : E.SecureRandId n with
      | error e => simp [hr] at h
      | ok id =>
        simp only [hr] at h
        cases hrec : addUserTunnels E user rest none (n + 1) with
        | failed e m2 => simp [hrec] at h
        | done ts2 err2 m2 => simp [hrec] at h
        | nilTunnel m2 => exact List.mem_cons_of_mem _ (ih none (n + 1) m2 hrec)

theorem addUser_cases (E : Env) (mgr : ConfigMgr) (w : ResponseWriter) (r : Request)
    (n : Nat) :
    ((addUser E mgr w r n).mgr = mgr ∧ (addUser E mgr w r n).w = w ∧
      ((∃ e, (addUser E mgr w r n).outcome = .returned 400 e) ∨
        ((addUser E mgr w r n).outcome = .panicked ∧
          ∃ uc0, requestedConfig E r = some uc0 ∧ none ∈ uc0.Tunnel))) ∨
    (∃ uc0 ts err m, E.pass = r.auth ∧ requestedConfig E r = some uc0 ∧
      addUserTunnels E uc0.User uc0.Tunnel none n = .done ts err m ∧
      (∀ u, mapGet mgr.users uc0.User = some u →
        ¬ (u.Uc.Password ≠ "" ∧ u.Uc.Password ≠ uc0.Password)) ∧
      addUser E mgr w r n = accepted E mgr w uc0 ts m) := by
  by_cases hp : E.pass ≠ r.auth
  · left
    simp [addUser, hp]
  · have hpass : E.pass = r.auth := by
      by_contra hc
      exact hp hc
    cases hb : r.body with
    | error e =>
      left
      simp [addUser, hp, hb]
    | ok body =>
      cases hu : E.unmarshal body with
      | error e =>
        left
        simp [addUser, hp, hb, hu]
      | ok uc0 =>
        have hreq : requestedConfig E r = some uc0 := by
          simp [requestedConfig, hb, hu]
        cases ht : addUserTunnels E uc0.User uc0.Tunnel none n with
        | nilTunnel m =>
          left
          have hmem := addUserTunnels_nilTunnel E uc0.User uc0.Tunnel none n m ht
          refine ⟨?_, ?_, Or.inr ⟨?_, uc0, hreq, hmem⟩⟩ <;>
            simp [addUser, hp, hb, hu, ht]
        | failed e m =>
          left
          simp [addUser, hp, hb, hu, ht]
        | done ts err m =>
          have herr : err = none := by
            rcases (addUserTunnels_done E uc0.User uc0.Tunnel none n ts err m ht).2 with h | h
            · exact h
            · exact h
          subst herr
          cases hg : mapGet mgr.users uc0.User with
          | none =>
            right
            refine ⟨uc0, ts, none, m, hpass, hreq, ht, ?_, ?_⟩
            · intro u hu2
              rw [hg] at hu2
              cases hu2
            · simp [addUser, hp, hb, hu, ht, getUserInfo_eq, hg, accepted,
                ConfigMgr.AddUserConfig]
          | some u =>
            by_cases hd : u.Uc.Password ≠ "" ∧ u.Uc.Password ≠ uc0.Password
            · left
              simp [addUser, hp, hb, hu, ht, getUserInfo_eq, hg, hd]
            · right
              refine ⟨uc0, ts, none, m, hpass, hreq, ht, ?_, ?_⟩
              · intro u2 hu2
                rw [hg] at hu2
                cases hu2
                exact hd
              · simp only [addUser, hp, hb, hu, ht, getUserInfo_eq, hg, accepted,
                  ConfigMgr.AddUserConfig, if_false]
                simp [hd]

theorem checkForLogin_char (cMgr : ConfigMgr) (authMsg : Auth) :
    (∀ ui, CheckForLogin cMgr authMsg = some ui ↔
      (mapGet cMgr.users authMsg.User = some ui ∧
        (ui.Uc.Password = "" ∨ ui.Uc.Password = authMsg.Password) ∧
        ui.TransPerDay ≤ 1073741824)) ∧
    (CheckForLogin cMgr authMsg = none ↔
      ¬ ∃ ui, mapGet cMgr.users authMsg.User = some ui ∧
        (ui.Uc.Password = "" ∨ ui.Uc.Password = authMsg.Password) ∧
        ui.TransPerDay ≤ 1073741824) := by
  cases hg : mapGet cMgr.users authMsg.User with
  | none => simp [CheckForLogin, getUserInfo_eq, hg]
  | some usr =>
    have hunf : CheckForLogin cMgr authMsg =
        if usr.Uc.Password ≠ "" ∧ usr.Uc.Password ≠ authMsg.Password then none
        else if usr.TransPerDay > 1024 * 1024 * 1024 then none else some usr := by
      simp only [CheckForLogin, getUserInfo_eq, hg]
    rw [hunf]
    by_cases hp : usr.Uc.Password ≠ "" ∧ usr.Uc.Password ≠ authMsg.Password
    · have hn : ¬ (usr.Uc.Password = "" ∨ usr.Uc.Password = authMsg.Password) := by
        rintro (h | h)
        · exact hp.1 h
        · exact hp.2 h
      rw [if_pos hp]
      constructor
      · intro ui
        constructor
        · intro h; cases h
        · rintro ⟨h1, h2, _⟩
          cases h1
          exact absurd h2 hn
      · refine ⟨fun _ => ?_, fun _ => rfl⟩
        rintro ⟨ui, h1, h2, _⟩
        cases h1
        exact hn h2
    · have hy : usr.Uc.Password = "" ∨ usr.Uc.Password = authMsg.Password := by
        by_contra hc
        push_neg at hc
        exact hp hc
      rw [if_neg hp]
      by_cases hd : usr.TransPerDay > 1024 * 1024 * 1024
      · rw [if_pos hd]
        constructor
        · intro ui
          constructor
          · intro h; cases h
          · rintro ⟨h1, _, h3⟩
            cases h1
            omega
        · refine ⟨fun _ => ?_, fun _ => rfl⟩
          rintro ⟨ui, h1, _, h3⟩
          cases h1
          omega
      · rw [if_neg hd]
        have hle : usr.TransPerDay ≤ 1073741824 := by omega
        constructor
        · intro ui
          constructor
          · intro h
            cases h
            exact ⟨rfl, hy, hle⟩
          · rintro ⟨h1, _, _⟩
            cases h1
            rfl
        · constructor
          · intro h; cases h
          · intro h
            exact absurd ⟨usr, rfl, hy, hle⟩ h

/-- C1. `CheckForLogin` authorizes exactly when the tenant is in the registry,
its stored secret is empty or equal to the supplied one, and its
transferred-bytes-today counter is at most 1073741824; it then returns the
registry's own record for the tenant, and otherwise it returns denied. -/
theorem checkForLogin_spec (cMgr : ConfigMgr) (authMsg : Auth) :
    (∀ ui, CheckForLogin cMgr authMsg = some ui ↔
      (mapGet cMgr.users authMsg.User = some ui ∧
        (ui.Uc.Password = "" ∨ ui.Uc.Password = authMsg.Password) ∧
        ui.TransPerDay ≤ 1073741824)) ∧
    (CheckForLogin cMgr authMsg = none ↔
      ¬ ∃ ui, mapGet cMgr.users authMsg.User = some ui ∧
        (ui.Uc.Password = "" ∨ ui.Uc.Password = authMsg.Password) ∧
        ui.TransPerDay ≤ 1073741824) :=
  checkForLogin_char cMgr authMsg

/-- C9. `blockTransform` returns two segments: both are `"__small"` when the
key is shorter than four bytes, and otherwise they are the first two bytes of
the key and its next two bytes, each two bytes long; equal keys give equal
segments. -/
theorem blockTransform_spec (s : GoString) :
    (blockTransform s).length = 2 ∧
    (s.length < 4 → blockTransform s = [smallBucket, smallBucket]) ∧
    (4 ≤ s.length →
      blockTransform s = [s.take 2, (s.drop 2).take 2] ∧
      (s.take 2).length = 2 ∧ ((s.drop 2).take 2).length = 2) ∧
    (∀ t : GoString, t = s → blockTransform t = blockTransform s) := by
  have hsmall : s.length < 4 → blockTransform s = [smallBucket, smallBucket] := by
    intro h
    have h4 : s.length < 2 * 2 := by omega
    simp [blockTransform, h4, List.range_succ, List.replicate]
  have hbig : 4 ≤ s.length → blockTransform s = [s.take 2, (s.drop 2).take 2] := by
    intro h
    have h4 : ¬ s.length < 2 * 2 := by omega
    simp [blockTransform, h4, List.range_succ, List.replicate, goSlice]
  refine ⟨?_, hsmall, ?_, ?_⟩
  · by_cases h : s.length < 4
    · rw [hsmall h]; rfl
    · rw [hbig (by omega)]; rfl
  · intro h
    refine ⟨hbig h, ?_, ?_⟩
    · simp [List.length_take]; omega
    · simp [List.length_take, List.length_drop]; omega
  · intro t ht
    rw [ht]


/-- C3. Where the code departs from the claim: a request that passes the
password check, is read, decodes and gets its identifiers, but brings a secret
different from the non-empty stored one, makes `addUser` return status 400
with a `nil` error, so `ServeHTTP` writes nothing: the response is left
untouched and goes out with status 200, not 400. -/
theorem serveHTTP_mismatch_writes_nothing (E : Env) (mgr : ConfigMgr) (r : Request)
    (n : Nat) (uc0 : UserConfig) (usr : UserInfo)
    (ts : List (Option ClientTunnel)) (err : Option String) (m : Nat)
    (hpass : E.pass = r.auth)
    (hreq : requestedConfig E r = some uc0)
    (ht : addUserTunnels E uc0.User uc0.Tunnel none n = .done ts err m)
    (hg : mapGet mgr.users uc0.User = some usr)
    (h1 : usr.Uc.Password ≠ "") (h2 : usr.Uc.Password ≠ uc0.Password) :
    (addUser E mgr ResponseWriter.fresh r n).outcome = .returned 400 none ∧
    (ServeHTTP addUser E mgr ResponseWriter.fresh r n).w = ResponseWriter.fresh ∧
    (ServeHTTP addUser E mgr ResponseWriter.fresh r n).w.sentStatus = 200 := by
  have herr : err = none := by
    rcases (addUserTunnels_done E uc0.User uc0.Tunnel none n ts err m ht).2 with h | h
    · exact h
    · exact h
  subst herr
  have hbody : ∃ body, r.body = .ok body ∧ E.unmarshal body = .ok uc0 := by
    unfold requestedConfig at hreq
    cases hb : r.body with
    | error e => simp [hb] at hreq
    | ok body =>
      cases hu : E.unmarshal body with
      | error e => simp [hb, hu] at hreq
      | ok uc1 =>
        simp [hb, hu] at hreq
        exact ⟨body, rfl, by rw [hu, hreq]⟩
  obtain ⟨body, hb, hu⟩ := hbody
  have hstep : addUser E mgr ResponseWriter.fresh r n =
      ⟨.returned 400 none, mgr, ResponseWriter.fresh, m⟩ := by
    simp [addUser, hpass, hb, hu, ht, getUserInfo_eq, hg, h1, h2]
  have hserve : (ServeHTTP addUser E mgr ResponseWriter.fresh r n).w = ResponseWriter.fresh := by
    simp [ServeHTTP, hstep]
  refine ⟨by rw [hstep], hserve, ?_⟩
  rw [hserve]
  rfl

/-- C3, at a concrete input: alice is registered with the secret `secret`; the
request is authenticated and brings the secret `wrong`. -/
theorem serveHTTP_mismatch_writes_nothing_witness :
    (ServeHTTP addUser sampleEnv aliceMgr ResponseWriter.fresh
        (adminRequest aliceWrongBody) 0).w.sentStatus = 200 ∧
      (ServeHTTP addUser sampleEnv aliceMgr ResponseWriter.fresh
        (adminRequest aliceWrongBody) 0).w.body = "" :=
  ⟨(serveHTTP_mismatch_writes_nothing sampleEnv aliceMgr (adminRequest aliceWrongBody) 0
      { User := "alice", Password := "wrong", Tunnel := [] } aliceInfo [] none 0
      (by decide) (by decide) (by decide) (by decide) (by decide) (by decide)).2.2,
    by decide⟩

theorem loadKeys_panics (E : Env) (db : Db) (k b e : String)
    (hr : db.diskv.Read k = .ok b) (hu : E.unmarshal b = .error e) :
    ∀ (ks : List String) (mgr : ConfigMgr), k ∈ ks → loadKeys E db ks mgr = .panic := by
  have hload : db.loadFrom E k = (none, none) := by
    simp [Db.loadFrom, hr, hu]
  intro ks
  induction ks with
  | nil =>
    intro mgr hk
    cases hk
  | cons k1 rest ih =>
    intro mgr hk
    by_cases hk1 : k1 = k
    · subst hk1
      simp [loadKeys, hload, ConfigMgr.AddUserConfig]
    · have hmem : k ∈ rest := by
        rcases List.mem_cons.mp hk with h | h
        · exact absurd h.symm hk1
        · exact h
      unfold loadKeys
      rcases hl : db.loadFrom E k1 with ⟨uc, err⟩
      cases err with
      | some e1 => exact ih mgr hmem
      | none =>
        cases uc with
        | none => simp [ConfigMgr.AddUserConfig]
        | some c => simpa [ConfigMgr.AddUserConfig] using ih _ hmem

/-- C4. Where the code departs from the claim: when a stored record under the
prefix can be read but does not decode, `loadFrom` returns a `nil` pointer
with a `nil` error, `LoadAll` hands the `nil` pointer to `AddUserConfig`, and
the load panics instead of skipping the record. -/
theorem loadAll_panics_on_undecodable (E : Env) (db : Db) (mgr : ConfigMgr)
    (k b e : String)
    (hk : k ∈ db.diskv.KeysPrefix DbPrefix)
    (hr : db.diskv.Read k = .ok b) (hu : E.unmarshal b = .error e) :
    db.loadFrom E k = (none, none) ∧ db.LoadAll E mgr = .panic := by
  refine ⟨by simp [Db.loadFrom, hr, hu], ?_⟩
  unfold Db.LoadAll
  rw [loadKeys_panics E db k b e hr hu _ mgr hk]

/-- C4, at a concrete input: the store holds one record, under the key of bob,
whose content is `not json`. -/
theorem loadAll_panics_on_undecodable_witness :
    corruptDb.LoadAll sampleEnv { db := corruptDb, users := [] } = .panic :=
  (loadAll_panics_on_undecodable sampleEnv corruptDb { db := corruptDb, users := [] }
    "ngrok:bob" "not json" "invalid character" (by decide) (by rfl) (by rfl)).2

theorem addUser_accepts (E : Env) (mgr : ConfigMgr) (w : ResponseWriter) (r : Request)
    (n : Nat) (uc0 : UserConfig) (ts : List (Option ClientTunnel)) (err : Option String)
    (m : Nat)
    (hpass : E.pass = r.auth)
    (hreq : requestedConfig E r = some uc0)
    (ht : addUserTunnels E uc0.User uc0.Tunnel none n = .done ts err m)
    (hvalid : ∀ u, mapGet mgr.users uc0.User = some u →
      ¬ (u.Uc.Password ≠ "" ∧ u.Uc.Password ≠ uc0.Password)) :
    addUser E mgr w r n = accepted E mgr w uc0 ts m := by
  rcases addUser_cases E mgr w r n with ⟨_, _, ho⟩ | ⟨uc1, ts1, err1, m1, _, hreq1, ht1, _, hacc⟩
  · exfalso
    have hbody : ∃ body, r.body = .ok body ∧ E.unmarshal body = .ok uc0 := by
      unfold requestedConfig at hreq
      cases hb : r.body with
      | error e => simp [hb] at hreq
      | ok body =>
        cases hu : E.unmarshal body with
        | error e => simp [hb, hu] at hreq
        | ok uc1 =>
          simp [hb, hu] at hreq
          exact ⟨body, rfl, by rw [hu, hreq]⟩
    obtain ⟨body, hb, hu⟩ := hbody
    have herr : err = none := by
      rcases (addUserTunnels_done E uc0.User uc0.Tunnel none n ts err m ht).2 with h | h
      · exact h
      · exact h
    subst herr
    have hstep : (addUser E mgr w r n).outcome = .returned 200 none := by
      cases hg : mapGet mgr.users uc0.User with
      | none =>
        simp [addUser, hpass, hb, hu, ht, getUserInfo_eq, hg, ConfigMgr.AddUserConfig]
      | some u =>
        have hd := hvalid u hg
        simp only [addUser, hpass, hb, hu, ht, getUserInfo_eq, hg, ConfigMgr.AddUserConfig]
        simp [hd]
    rcases ho with ⟨e, ho⟩ | ⟨ho, _⟩
    · rw [ho] at hstep
      cases hstep
    · rw [ho] at hstep
      cases hstep
  · rw [hreq] at hreq1
    cases hreq1
    rw [ht] at ht1
    cases ht1
    exact hacc

/-- C5. Where the code departs from the claim: for a request that passes
validation (password, body, identifiers, secret) on a store whose write fails,
the write reports an error, `Save` still returns `nil`, and `addUser` still
returns 200 with a `nil` error and writes the ok body; the account is in the
registry and nothing was stored. -/
theorem addUser_ok_when_write_fails (E : Env) (mgr : ConfigMgr) (w : ResponseWriter)
    (r : Request) (n : Nat) (uc0 : UserConfig) (ts : List (Option ClientTunnel))
    (err : Option String) (m : Nat)
    (hpass : E.pass = r.auth)
    (hreq : requestedConfig E r = some uc0)
    (ht : addUserTunnels E uc0.User uc0.Tunnel none n = .done ts err m)
    (hvalid : ∀ u, mapGet mgr.users uc0.User = some u →
      ¬ (u.Uc.Password ≠ "" ∧ u.Uc.Password ≠ uc0.Password))
    (hfail : mgr.db.diskv.writeFails = true) :
    (mgr.db.diskv.Write (DbPrefix ++ ":" ++ uc0.User)
      (E.marshalConfig { uc0 with Tunnel := ts })).2 = some "write failed" ∧
    (mgr.db.Save E { uc0 with Tunnel := ts }).2 = none ∧
    (addUser E mgr w r n).outcome = .returned 200 none ∧
    (addUser E mgr w r n).w.body = w.body ++ "\x7b\x27code\x27: \x27ok\x27\x7d" ∧
    (addUser E mgr w r n).w.sentStatus = w.sentStatus ∧
    mapGet (addUser E mgr w r n).mgr.users uc0.User =
      some { Uc := { uc0 with Tunnel := ts }, TransPerDay := 0, TransAll := 0 } ∧
    (addUser E mgr w r n).mgr.db = mgr.db := by
  refine ⟨by simp [Diskv.Write, hfail], rfl, ?_⟩
  rw [addUser_accepts E mgr w r n uc0 ts err m hpass hreq ht hvalid]
  refine ⟨rfl, ?_, ?_, ?_, ?_⟩
  · simp [accepted, ResponseWriter.Write, ResponseWriter.WriteHeader,
      ResponseWriter.HeaderSet]
    cases w.status <;> rfl
  · simp only [accepted, ResponseWriter.Write, ResponseWriter.WriteHeader,
      ResponseWriter.HeaderSet, ResponseWriter.sentStatus]
    cases w.status <;> rfl
  · simp [accepted, mapGet_mapSet]
  · simp [accepted, Db.Save, Diskv.Write, hfail]

/-- C5, at a concrete input: bob is registered on a store whose writes fail. -/
theorem addUser_ok_when_write_fails_witness :
    (addUser sampleEnv { db := fullDiskDb, users := [] } ResponseWriter.fresh
        (adminRequest bobBody) 0).outcome = .returned 200 none ∧
      (fullDiskDb.Save sampleEnv { User := "bob", Password := "pw", Tunnel := [] }).2 = none ∧
      (addUser sampleEnv { db := fullDiskDb, users := [] } ResponseWriter.fresh
        (adminRequest bobBody) 0).mgr.db = fullDiskDb :=
  ⟨(addUser_ok_when_write_fails sampleEnv { db := fullDiskDb, users := [] }
      ResponseWriter.fresh (adminRequest bobBody) 0
      { User := "bob", Password := "pw", Tunnel := [] } [] none 0
      (by decide) (by decide) (by decide) (by decide) (by decide)).2.2.1,
    (addUser_ok_when_write_fails sampleEnv { db := fullDiskDb, users := [] }
      ResponseWriter.fresh (adminRequest bobBody) 0
      { User := "bob", Password := "pw", Tunnel := [] } [] none 0
      (by decide) (by decide) (by decide) (by decide) (by decide)).2.1,
    (addUser_ok_when_write_fails sampleEnv { db := fullDiskDb, users := [] }
      ResponseWriter.fresh (adminRequest bobBody) 0
      { User := "bob", Password := "pw", Tunnel := [] } [] none 0
      (by decide) (by decide) (by decide) (by decide) (by decide)).2.2.2.2.2.2⟩

theorem mapGet_timeout (m : UserMap) (k : String) :
    mapGet (m.map (fun p => (p.1, { p.2 with TransPerDay := 0 }))) k =
      (mapGet m k).map (fun ui => { ui with TransPerDay := 0 }) := by
  induction m with
  | nil => rfl
  | cons p rest ih =>
    obtain ⟨k0, v0⟩ := p
    by_cases h : k0 = k
    · simp [mapGet, h]
    · simp [mapGet, h, ih]

/-- C7. After `TimeoutAllDays` the registry has the same tenant identifiers,
every account has its transferred-bytes-today counter at zero, and every
account keeps its secret, its tunnel list and its transferred-bytes-total
counter; the store is untouched. -/
theorem timeoutAllDays_spec (mgr : ConfigMgr) :
    mapKeys mgr.TimeoutAllDays.users = mapKeys mgr.users ∧
    (∀ p ∈ mgr.TimeoutAllDays.users, p.2.TransPerDay = 0) ∧
    (∀ k, mapGet mgr.users k = none → mapGet mgr.TimeoutAllDays.users k = none) ∧
    (∀ k ui, mapGet mgr.users k = some ui →
      mapGet mgr.TimeoutAllDays.users k =
        some { Uc := ui.Uc, TransPerDay := 0, TransAll := ui.TransAll }) ∧
    mgr.TimeoutAllDays.db = mgr.db := by
  refine ⟨?_, ?_, ?_, ?_, rfl⟩
  · simp [ConfigMgr.TimeoutAllDays, mapKeys, List.map_map, Function.comp_def]
  · intro p hp
    simp only [ConfigMgr.TimeoutAllDays, List.mem_map] at hp
    obtain ⟨q, _, hq⟩ := hp
    rw [← hq]
  · intro k hk
    simp only [ConfigMgr.TimeoutAllDays]
    rw [mapGet_timeout, hk]
    rfl
  · intro k ui hk
    simp only [ConfigMgr.TimeoutAllDays]
    rw [mapGet_timeout, hk]
    rfl

/-- C10. When a tenant that is not in the registry is registered with a
secret and a list of tunnel requests and `addUser` answers 200, then
`CheckForLogin` with that tenant and secret returns an account with as many
tunnels as there were requests, in the same order, and the subdomain of each
is the requested subdomain followed by a dot and the tenant identifier. -/
theorem register_then_login (E : Env) (mgr : ConfigMgr) (w : ResponseWriter)
    (r : Request) (n : Nat) (tenant secret : String) (reqs : List ClientTunnel)
    (_hnew : mapGet mgr.users tenant = none)
    (hreq : requestedConfig E r =
      some { User := tenant, Password := secret, Tunnel := reqs.map some })
    (hok : (addUser E mgr w r n).outcome = .returned 200 none) :
    ∃ ui, CheckForLogin (addUser E mgr w r n).mgr { User := tenant, Password := secret }
        = some ui ∧
      ui.Uc.Tunnel.length = reqs.length ∧
      ui.Uc.Tunnel.map (Option.map ClientTunnel.Subdomain) =
        reqs.map (fun t => some (t.Subdomain ++ "." ++ tenant)) := by
  rcases addUser_cases E mgr w r n with ⟨_, _, ho⟩ | ⟨uc1, ts, err, m, _, hreq1, ht, _, hacc⟩
  · rcases ho with ⟨e, ho⟩ | ⟨ho, _⟩
    · rw [ho] at hok
      cases hok
    · rw [ho] at hok
      cases hok
  · rw [hreq] at hreq1
    cases hreq1
    have hts := (addUserTunnels_done E tenant (reqs.map some) none n ts err m ht).1
    have hmap : ts.map (Option.map ClientTunnel.Subdomain) =
        reqs.map (fun t => some (t.Subdomain ++ "." ++ tenant)) := by
      rw [hts]
      simp [List.map_map, Function.comp_def]
    refine ⟨⟨{ User := tenant, Password := secret, Tunnel := ts }, 0, 0⟩, ?_, ?_, hmap⟩
    · rw [hacc]
      simp [CheckForLogin, getUserInfo_eq, accepted, mapGet_mapSet]
    · have hlen := congrArg List.length hmap
      simpa using hlen

/-- C10, at a concrete input: alice registers with the secret `secret` and one
tunnel request for the subdomain `api`; the login then returns one tunnel
whose subdomain is `api.alice`. -/
theorem register_then_login_witness :
    ∃ ui, CheckForLogin
        (addUser sampleEnv { db := emptyDb, users := [] } ResponseWriter.fresh
          (adminRequest aliceBody) 0).mgr { User := "alice", Password := "secret" } = some ui ∧
      ui.Uc.Tunnel.length = 1 ∧
      ui.Uc.Tunnel.map (Option.map ClientTunnel.Subdomain) = [some "api.alice"] :=
  register_then_login sampleEnv { db := emptyDb, users := [] } ResponseWriter.fresh
    (adminRequest aliceBody) 0 "alice" "secret" [{ Id := "", Subdomain := "api" }]
    (by decide) (by decide) (by decide)


/-- C6, the claim refuted at a concrete input: alice is in the registry with 5
bytes counted today and 7 in total; she is registered again with her own
secret, `addUser` answers 200, and both her counters are zero afterwards. -/
theorem reregister_resets_counters :
    mapGet aliceMgr.users "alice" = some aliceInfo ∧
      aliceInfo.TransPerDay = 5 ∧ aliceInfo.TransAll = 7 ∧
      (addUser sampleEnv aliceMgr ResponseWriter.fresh (adminRequest aliceBody) 0).outcome
        = .returned 200 none ∧
      (mapGet (addUser sampleEnv aliceMgr ResponseWriter.fresh
        (adminRequest aliceBody) 0).mgr.users "alice").map UserInfo.TransPerDay = some 0 ∧
      (mapGet (addUser sampleEnv aliceMgr ResponseWriter.fresh
        (adminRequest aliceBody) 0).mgr.users "alice").map UserInfo.TransAll = some 0 := by
  decide

/-- C6, amended. For a tenant in the registry: an `addUser` for another
tenant, or one that is not answered 200, leaves the tenant's record, and so
both its counters, as they were; `GetUserInfo` and `CheckForLogin` return that
very record; `TimeoutAllDays` sets the transferred-bytes-today counter to zero
and keeps the transferred-bytes-total counter; and an `addUser` for the same
tenant that is answered 200 replaces the record by one whose two counters are
zero. -/
theorem counters_frame (E : Env) (mgr : ConfigMgr) (w : ResponseWriter) (r : Request)
    (n : Nat) (t : String) (ui : UserInfo) (h : mapGet mgr.users t = some ui) :
    (requestedUser E r ≠ some t →
      mapGet (addUser E mgr w r n).mgr.users t = some ui) ∧
    ((addUser E mgr w r n).outcome ≠ .returned 200 none →
      mapGet (addUser E mgr w r n).mgr.users t = some ui) ∧
    (requestedUser E r = some t → (addUser E mgr w r n).outcome = .returned 200 none →
      ∃ uc, mapGet (addUser E mgr w r n).mgr.users t =
        some { Uc := uc, TransPerDay := 0, TransAll := 0 }) ∧
    mapGet mgr.TimeoutAllDays.users t =
      some { Uc := ui.Uc, TransPerDay := 0, TransAll := ui.TransAll } ∧
    mgr.GetUserInfo t = some ui ∧
    (∀ a u, a.User = t → CheckForLogin mgr a = some u → u = ui) := by
  refine ⟨?_, ?_, ?_, ?_, ?_, ?_⟩
  · intro hne
    rcases addUser_cases E mgr w r n with ⟨hm, _, _⟩ | ⟨uc1, ts, err, m, _, hreq1, _, _, hacc⟩
    · rw [hm, h]
    · have hu : uc1.User ≠ t := by
        intro e
        apply hne
        simp [requestedUser, hreq1, e]
      rw [hacc]
      simp [accepted, mapGet_mapSet, hu, h]
  · intro hne
    rcases addUser_cases E mgr w r n with ⟨hm, _, _⟩ | ⟨uc1, ts, err, m, _, _, _, _, hacc⟩
    · rw [hm, h]
    · rw [hacc] at hne
      exact absurd rfl hne
  · intro hreq hok
    rcases addUser_cases E mgr w r n with ⟨_, _, ho⟩ | ⟨uc1, ts, err, m, _, hreq1, _, _, hacc⟩
    · rcases ho with ⟨e, ho⟩ | ⟨ho, _⟩
      · rw [ho] at hok
        cases hok
      · rw [ho] at hok
        cases hok
    · have hu : uc1.User = t := by
        simpa [requestedUser, hreq1] using hreq
      refine ⟨{ uc1 with Tunnel := ts }, ?_⟩
      rw [hacc]
      simp [accepted, mapGet_mapSet, hu]
  · simp only [ConfigMgr.TimeoutAllDays]
    rw [mapGet_timeout, h]
    rfl
  · rw [getUserInfo_eq, h]
  · intro a u ha hc
    have hget := ((checkForLogin_char mgr a).1 u).mp hc
    rw [ha, h] at hget
    exact (Option.some.inj hget.1).symm

/-- C6 amended, at a concrete input: alice is in the registry with 5 bytes
counted today and 7 in total, and bob is registered. -/
theorem counters_frame_witness :
    mapGet (addUser sampleEnv aliceMgr ResponseWriter.fresh
        (adminRequest bobBody) 0).mgr.users "alice" = some aliceInfo ∧
      mapGet aliceMgr.TimeoutAllDays.users "alice" =
        some { Uc := aliceInfo.Uc, TransPerDay := 0, TransAll := 7 } :=
  ⟨(counters_frame sampleEnv aliceMgr ResponseWriter.fresh (adminRequest bobBody) 0
      "alice" aliceInfo (by decide)).1 (by decide),
    (counters_frame sampleEnv aliceMgr ResponseWriter.fresh (adminRequest bobBody) 0
      "alice" aliceInfo (by decide)).2.2.2.1⟩


theorem listAll_eq_map (E : Env) (mgr : ConfigMgr) :
    mgr.ListAll E = mgr.users.map (fun p => E.marshalInfo p.2) := by
  have hfold : ∀ (l : UserMap) (acc : List String),
      l.foldl (fun s p => s ++ [E.marshalInfo p.2]) acc =
        acc ++ l.map (fun p => E.marshalInfo p.2) := by
    intro l
    induction l with
    | nil => intro acc; simp
    | cons p rest ih => intro acc; simp [ih]
  simpa [ConfigMgr.ListAll] using hfold mgr.users []

theorem registerAll_keys (E : Env) :
    ∀ (reqs : List Request) (mgr : ConfigMgr) (n : Nat),
      (∀ o ∈ (registerAll E mgr n reqs).2.2, o = .returned 200 none) →
      (reqs.filterMap (requestedUser E)).Nodup →
      (∀ id ∈ reqs.filterMap (requestedUser E), id ∉ mapKeys mgr.users) →
      (∀ p ∈ mgr.users, p.2.Uc.User = p.1) →
      mapKeys (registerAll E mgr n reqs).1.users =
          mapKeys mgr.users ++ reqs.filterMap (requestedUser E) ∧
        (∀ p ∈ (registerAll E mgr n reqs).1.users, p.2.Uc.User = p.1) ∧
        (reqs.filterMap (requestedUser E)).length = reqs.length := by
  intro reqs
  induction reqs with
  | nil =>
    intro mgr n _ _ _ hinv
    refine ⟨?_, ?_, ?_⟩
    · simp [registerAll]
    · simpa only [registerAll] using hinv
    · simp
  | cons r rs ih =>
    intro mgr n hok hnd hfresh hinv
    have hhead : (addUser E mgr ResponseWriter.fresh r n).outcome = .returned 200 none :=
      hok _ (by simp [registerAll])
    have htail : ∀ o ∈ (registerAll E (addUser E mgr ResponseWriter.fresh r n).mgr
        (addUser E mgr ResponseWriter.fresh r n).rand rs).2.2, o = .returned 200 none := by
      intro o ho
      exact hok o (by simp [registerAll, ho])
    rcases addUser_cases E mgr ResponseWriter.fresh r n with
      ⟨_, _, ho⟩ | ⟨uc1, ts, err, m, _, hreq1, _, _, hacc⟩
    · rcases ho with ⟨e, ho⟩ | ⟨ho, _⟩
      · rw [ho] at hhead
        cases hhead
      · rw [ho] at hhead
        cases hhead
    · have hid : requestedUser E r = some uc1.User := by
        simp [requestedUser, hreq1]
      have hids : (r :: rs).filterMap (requestedUser E) =
          uc1.User :: rs.filterMap (requestedUser E) := by
        simp [List.filterMap_cons, hid]
      rw [hids] at hnd hfresh ⊢
      have hnotin : uc1.User ∉ mapKeys mgr.users := hfresh _ (List.mem_cons_self _ _)
      have husers : (addUser E mgr ResponseWriter.fresh r n).mgr.users =
          mapSet mgr.users uc1.User
            { Uc := { uc1 with Tunnel := ts }, TransPerDay := 0, TransAll := 0 } := by
        rw [hacc]
        rfl
      have hkeys : mapKeys (addUser E mgr ResponseWriter.fresh r n).mgr.users =
          mapKeys mgr.users ++ [uc1.User] := by
        rw [husers]
        exact mapKeys_mapSet_of_not_mem _ _ _ hnotin
      have hinv1 : ∀ p ∈ (addUser E mgr ResponseWriter.fresh r n).mgr.users,
          p.2.Uc.User = p.1 := by
        intro p hp
        rw [husers] at hp
        rcases mem_mapSet _ _ _ _ hp with h | h
        · rw [h]
        · exact hinv p h
      have hfresh1 : ∀ id ∈ rs.filterMap (requestedUser E),
          id ∉ mapKeys (addUser E mgr ResponseWriter.fresh r n).mgr.users := by
        intro id hmem
        rw [hkeys]
        intro hc
        rcases List.mem_append.mp hc with h | h
        · exact hfresh id (List.mem_cons_of_mem _ hmem) h
        · have : id = uc1.User := by simpa using h
          rw [this] at hmem
          exact (List.nodup_cons.mp hnd).1 hmem
      obtain ⟨ih1, ih2, ih3⟩ := ih (addUser E mgr ResponseWriter.fresh r n).mgr
        (addUser E mgr ResponseWriter.fresh r n).rand htail (List.nodup_cons.mp hnd).2
        hfresh1 hinv1
      refine ⟨?_, ?_, ?_⟩
      · simp only [registerAll]
        rw [ih1, hkeys]
        simp
      · simpa only [registerAll] using ih2
      · simp [ih3]

/-- C8. From an empty registry, after a sequence of add-account requests that
are all answered 200 and name pairwise distinct tenants, `ListAll` returns the
serialized records of a list of accounts whose tenant identifiers are, up to
order, exactly the requested identifiers, one record per identifier; for the
empty sequence it returns the empty list. -/
theorem listAll_after_registers (E : Env) (db : Db) (n : Nat) (reqs : List Request)
    (hok : ∀ o ∈ (registerAll E { db := db, users := [] } n reqs).2.2,
      o = .returned 200 none)
    (hdistinct : (reqs.filterMap (requestedUser E)).Nodup) :
    (∃ infos : List UserInfo,
      (registerAll E { db := db, users := [] } n reqs).1.ListAll E =
        infos.map E.marshalInfo ∧
      (infos.map (fun ui => ui.Uc.User)).Perm (reqs.filterMap (requestedUser E))) ∧
    ((registerAll E { db := db, users := [] } n reqs).1.ListAll E).length =
      (reqs.filterMap (requestedUser E)).length ∧
    (reqs.filterMap (requestedUser E)).length = reqs.length ∧
    (reqs = [] → (registerAll E { db := db, users := [] } n reqs).1.ListAll E = []) := by
  obtain ⟨hkeys, hinv, hlen⟩ := registerAll_keys E reqs { db := db, users := [] } n hok
    hdistinct (by intro id _; simp [mapKeys]) (by intro p hp; cases hp)
  have hnames : (registerAll E { db := db, users := [] } n reqs).1.users.map
      (fun p => p.2.Uc.User) = reqs.filterMap (requestedUser E) := by
    have h1 : (registerAll E { db := db, users := [] } n reqs).1.users.map
        (fun p => p.2.Uc.User) =
        (registerAll E { db := db, users := [] } n reqs).1.users.map Prod.fst :=
      List.map_congr_left (fun p hp => hinv p hp)
    rw [h1]
    simpa [mapKeys] using hkeys
  refine ⟨⟨(registerAll E { db := db, users := [] } n reqs).1.users.map Prod.snd, ?_, ?_⟩,
    ?_, hlen, ?_⟩
  · rw [listAll_eq_map]
    simp [List.map_map, Function.comp_def]
  · rw [List.map_map]
    exact List.Perm.of_eq hnames
  · rw [listAll_eq_map, List.length_map, ← hnames, List.length_map]
  · intro he
    subst he
    rfl

/-- C8, at a concrete input: alice and bob are registered, one after the
other, in an empty registry. -/
theorem listAll_after_registers_witness :
    ((registerAll sampleEnv { db := emptyDb, users := [] } 0
        [adminRequest aliceBody, adminRequest bobBody]).1.ListAll sampleEnv).length = 2 :=
  (listAll_after_registers sampleEnv emptyDb 0
    [adminRequest aliceBody, adminRequest bobBody] (by decide) (by decide)).2.1

end Ngrok
